import Mathlib

/- Shallow embedding of mattermost-server services/remotecluster/service.go:
   the Response envelope, the topic-listener registry and the lifecycle
   controller (Service), with proofs of the specified properties. -/

namespace RemoteCluster

/- Go maps (`map[string]V`) are modelled as association lists of key/value
   pairs with unique-key semantics enforced by the update operations; lookup
   returns the first binding. -/

def lookupA {α : Type} (l : List (String × α)) (k : String) : Option α :=
  match l with
  | [] => none
  | (k', v) :: rest => if k' = k then some v else lookupA rest k

def setA {α : Type} (l : List (String × α)) (k : String) (v : α) : List (String × α) :=
  match l with
  | [] => [(k, v)]
  | (k', v') :: rest => if k' = k then (k, v) :: rest else (k', v') :: setA rest k v

def eraseA {α : Type} (l : List (String × α)) (k : String) : List (String × α) :=
  match l with
  | [] => []
  | (k', v') :: rest => if k' = k then rest else (k', v') :: eraseA rest k

/- A Go `interface{}` value stored in a Response, together with its
   `fmt.Sprintf("%v", val)` rendering.  `stringer` stands for any non-string
   Go value whose `%v` rendering is the given text (e.g. a value implementing
   fmt.Stringer or error). -/

inductive GoValue : Type where
  | str : String → GoValue
  | intv : Int → GoValue
  | boolv : Bool → GoValue
  | stringer : String → GoValue
deriving DecidableEq

def GoValue.render : GoValue → String
  | .str s => s
  | .intv n => toString n
  | .boolv b => if b then "true" else "false"
  | .stringer s => s

/- Response is a map containing the response when sending a message to a
   remote cluster (source: `type Response map[string]interface{}`). -/
def Response : Type := List (String × GoValue)

/- Constants from service.go.  ResponseStatusKey/OK/Fail mirror model.STATUS,
   model.STATUS_OK and model.STATUS_FAIL ("status", "OK", "FAIL"); the model
   package is outside the shown source, but only the sentinel values matter. -/
def ResponseStatusKey : String := "status"
def ResponseErrorKey : String := "err"
def ResponseStatusOK : String := "OK"
def ResponseStatusFail : String := "FAIL"

/- Source: `func (r Response) String(key string) string` — textual form of the
   value under `key` if present, else "". -/
def Response.StringVal (r : Response) (key : String) : String :=
  match lookupA r key with
  | some val => val.render
  | none => ""

/- Source: `func (r Response) IsSuccess() bool`. -/
def Response.IsSuccess (r : Response) : Bool :=
  r.StringVal ResponseStatusKey == ResponseStatusOK

/- Source: `func (r Response) Error() string` — `fmt.Sprintf("%s: %s", ...)`
   when the status renders as the failure sentinel, else "". -/
def Response.Error (r : Response) : String :=
  if r.StringVal ResponseStatusKey = ResponseStatusFail then
    r.StringVal ResponseStatusKey ++ ": " ++ r.StringVal ResponseErrorKey
  else ""

/-- Claim C7: for every Response whose status key renders as "FAIL" and whose
"err" key holds the string x, Error() returns exactly "FAIL: " ++ x; and for
every Response whose status does not render as the failure sentinel, Error()
returns the empty string. -/
theorem c7_error_format (r : Response) (x : String) :
    (r.StringVal ResponseStatusKey = ResponseStatusFail →
      lookupA r ResponseErrorKey = some (GoValue.str x) →
      r.Error = "FAIL: " ++ x) ∧
    (r.StringVal ResponseStatusKey ≠ ResponseStatusFail → r.Error = "") := by
  constructor
  · intro hs he
    simp only [Response.Error, hs, if_pos rfl]
    simp [Response.StringVal, he, GoValue.render, hs, ResponseStatusFail]
  · intro hs
    simp [Response.Error, hs]

/-- Witness for C7 at concrete inputs: a failing response with error "boom"
formats as "FAIL: boom", and an OK response has empty Error(). -/
theorem c7_error_format_witness :
    Response.Error [(ResponseStatusKey, GoValue.str "FAIL"),
                    (ResponseErrorKey, GoValue.str "boom")] = "FAIL: boom" ∧
    Response.Error [(ResponseStatusKey, GoValue.str "OK")] = "" := by
  constructor
  · exact (c7_error_format _ "boom").1 (by decide) (by decide)
  · exact (c7_error_format [(ResponseStatusKey, GoValue.str "OK")] "boom").2 (by decide)

/-- Claim C8: for every Response in which the status key is missing, and more
generally whose status renders as neither "OK" nor "FAIL", IsSuccess() is
false and Error() is the empty string. -/
theorem c8_other_status (r : Response) :
    (lookupA r ResponseStatusKey = none →
      r.IsSuccess = false ∧ r.Error = "") ∧
    (r.StringVal ResponseStatusKey ≠ ResponseStatusOK →
      r.StringVal ResponseStatusKey ≠ ResponseStatusFail →
      r.IsSuccess = false ∧ r.Error = "") := by
  constructor
  · intro hmiss
    have hs : r.StringVal ResponseStatusKey = "" := by
      simp [Response.StringVal, hmiss]
    constructor
    · simp [Response.IsSuccess, hs, ResponseStatusOK]
    · simp [Response.Error, hs, ResponseStatusFail]
  · intro hok hfail
    constructor
    · simp only [Response.IsSuccess, beq_eq_false_iff_ne, ne_eq]
      exact hok
    · simp [Response.Error, hfail]

/-- Witness for C8 at concrete inputs: a Response without a status key, and a
Response with status "PENDING", are both not-success with empty Error(). -/
theorem c8_other_status_witness :
    (Response.IsSuccess [(ResponseErrorKey, GoValue.str "x")] = false ∧
     Response.Error [(ResponseErrorKey, GoValue.str "x")] = "") ∧
    (Response.IsSuccess [(ResponseStatusKey, GoValue.str "PENDING")] = false ∧
     Response.Error [(ResponseStatusKey, GoValue.str "PENDING")] = "") := by
  constructor
  · exact (c8_other_status _).1 (by decide)
  · exact (c8_other_status [(ResponseStatusKey, GoValue.str "PENDING")]).2
      (by decide) (by decide)

/-- Claim C10: status interpretation goes through the textual "%v" rendering,
not string equality on the stored value: for every Response whose status key
holds a value v, IsSuccess() is true iff v renders as "OK", Error() is the
formatted failure string iff v renders as "FAIL", and the err value is
likewise included by its rendering. -/
theorem c10_textual_rendering (r : Response) (v : GoValue)
    (h : lookupA r ResponseStatusKey = some v) :
    (r.IsSuccess = true ↔ v.render = ResponseStatusOK) ∧
    (r.Error = if v.render = ResponseStatusFail
               then v.render ++ ": " ++ r.StringVal ResponseErrorKey else "") ∧
    (∀ w, lookupA r ResponseErrorKey = some w → v.render = ResponseStatusFail →
      r.Error = "FAIL: " ++ w.render) := by
  have hs : r.StringVal ResponseStatusKey = v.render := by
    simp [Response.StringVal, h]
  refine ⟨?_, ?_, ?_⟩
  · simp [Response.IsSuccess, hs]
  · simp only [Response.Error, hs]
  · intro w hw hfail
    have he : r.StringVal ResponseErrorKey = w.render := by
      simp [Response.StringVal, hw]
    simp [Response.Error, hs, hfail, he, ResponseStatusFail]

/-- Witness for C10 at a concrete input: a status stored as a non-string value
rendering to "OK" is treated as success. -/
theorem c10_textual_rendering_witness :
    Response.IsSuccess [(ResponseStatusKey, GoValue.stringer "OK")] = true := by
  exact (c10_textual_rendering _ (GoValue.stringer "OK") (by decide)).1.mpr (by decide)

/- Entry in a topic's listener bucket (source: topicListenerEntry).  Listener
   callbacks are opaque function values; each is modelled by an identifying
   tag so that registry states are comparable. -/
structure topicListenerEntry where
  id : String
  listener : Nat
deriving DecidableEq

/- Lifecycle controller state (source: struct Service).  The channel-typed
   `done` field is modelled by a generation number allocated from the model
   counter `nextChan`; `closedChans` records which generations have been
   closed.  `pingStarts` and `sendStarts` record, per generation, the
   pingLoop/sendLoop pipeline starts performed by resume(); the pipeline
   bodies and the transport fields (server, send, httpClient) carry no
   claim-relevant state and are omitted. -/
structure Service where
  active : Bool
  leaderListenerId : String
  topicListeners : List (String × List (String × topicListenerEntry))
  done : Option Nat
  nextChan : Nat
  closedChans : List Nat
  pingStarts : List Nat
  sendStarts : List Nat
deriving DecidableEq

/- Source: NewRemoteClusterService — fresh service: inactive, empty listener
   map, nil done channel, zero-value leadership handle. -/
def NewRemoteClusterService : Service :=
  ⟨false, "", [], none, 0, [], [], []⟩

/- Source: AddTopicListener registers a callback and returns the generated
   listener id.  model.NewId() lives outside the shown source (spec: it
   "generates a globally unique id"); the generated id is embedded as the
   `newId` parameter and freshness is a hypothesis where a claim needs it.
   The Go code replaces a missing or nil bucket by a fresh map, then inserts. -/
def Service.AddTopicListener (s : Service) (topic : String) (newId : String)
    (listener : Nat) : Service × String :=
  let entry : topicListenerEntry := ⟨newId, listener⟩
  let entries := (lookupA s.topicListeners topic).getD []
  ({ s with topicListeners := setA s.topicListeners topic (setA entries entry.id entry) },
   entry.id)

/- Source: the body of RemoveTopicListener — scan the topic buckets for the
   id, delete it from the first bucket that holds it, delete the bucket if it
   became empty, and stop.  Go map iteration order is unspecified; list order
   stands in for it (the result is order-independent whenever listener ids are
   unique across buckets, which the id generator guarantees). -/
def removeListenerFromBuckets (reg : List (String × List (String × topicListenerEntry)))
    (listenerId : String) : List (String × List (String × topicListenerEntry)) :=
  match reg with
  | [] => []
  | (topic, entries) :: rest =>
    if (lookupA entries listenerId).isSome then
      let entries2 := eraseA entries listenerId
      if entries2.isEmpty then rest else (topic, entries2) :: rest
    else (topic, entries) :: removeListenerFromBuckets rest listenerId

def Service.RemoveTopicListener (s : Service) (listenerId : String) : Service :=
  { s with topicListeners := removeListenerFromBuckets s.topicListeners listenerId }

/- Source: getTopicListeners returns a snapshot of the listeners registered
   for a topic (nil when the topic has no bucket). -/
def Service.getTopicListeners (s : Service) (topic : String) : List Nat :=
  match lookupA s.topicListeners topic with
  | none => []
  | some entries => entries.map fun p => p.2.listener

/- Association-list lemmas. -/

theorem lookupA_setA_self {α : Type} (l : List (String × α)) (k : String) (v : α) :
    lookupA (setA l k v) k = some v := by
  induction l with
  | nil => simp [setA, lookupA]
  | cons hd tl ih =>
    obtain ⟨k', v'⟩ := hd
    by_cases hk : k' = k
    · simp [setA, hk, lookupA]
    · simp [setA, hk, lookupA, ih]

theorem lookupA_setA_ne {α : Type} (l : List (String × α)) (k k2 : String) (v : α)
    (h : k2 ≠ k) : lookupA (setA l k v) k2 = lookupA l k2 := by
  have hne : ¬ (k = k2) := fun hh => h hh.symm
  induction l with
  | nil => simp [setA, lookupA, hne]
  | cons hd tl ih =>
    obtain ⟨k', v'⟩ := hd
    by_cases hk : k' = k
    · subst hk
      simp [setA, lookupA, hne]
    · simp [setA, hk, lookupA, ih]

theorem setA_of_lookup_none {α : Type} (l : List (String × α)) (k : String) (v : α)
    (h : lookupA l k = none) : setA l k v = l ++ [(k, v)] := by
  induction l with
  | nil => rfl
  | cons hd tl ih =>
    obtain ⟨k', v'⟩ := hd
    by_cases hk : k' = k
    · simp [lookupA, hk] at h
    · have h' : lookupA tl k = none := by simpa [lookupA, hk] using h
      simp [setA, hk, ih h']

theorem length_setA_of_lookup_none {α : Type} (l : List (String × α)) (k : String)
    (v : α) (h : lookupA l k = none) : (setA l k v).length = l.length + 1 := by
  simp [setA_of_lookup_none l k v h]

theorem removeListenerFromBuckets_absent
    (reg : List (String × List (String × topicListenerEntry))) (lid : String)
    (h : ∀ p ∈ reg, lookupA p.2 lid = none) :
    removeListenerFromBuckets reg lid = reg := by
  induction reg with
  | nil => rfl
  | cons hd tl ih =>
    obtain ⟨t, b⟩ := hd
    have hb : lookupA b lid = none := h (t, b) (List.mem_cons_self _ _)
    have htl : ∀ p ∈ tl, lookupA p.2 lid = none := fun p hp => h p (List.mem_cons_of_mem _ hp)
    simp [removeListenerFromBuckets, hb, ih htl]

theorem removeListenerFromBuckets_append_singleton
    (reg : List (String × List (String × topicListenerEntry))) (lid t : String)
    (e : topicListenerEntry) (h : ∀ p ∈ reg, lookupA p.2 lid = none) :
    removeListenerFromBuckets (reg ++ [(t, [(lid, e)])]) lid = reg := by
  induction reg with
  | nil => simp [removeListenerFromBuckets, lookupA, eraseA]
  | cons hd tl ih =>
    obtain ⟨t', b⟩ := hd
    have hb : lookupA b lid = none := h (t', b) (List.mem_cons_self _ _)
    have htl : ∀ p ∈ tl, lookupA p.2 lid = none := fun p hp => h p (List.mem_cons_of_mem _ hp)
    simp [removeListenerFromBuckets, hb, ih htl]

/-- Claim C4: from any registry state with no bucket for a topic, adding a
listener (with a fresh generated id, as the id generator guarantees) and then
removing it by the returned id leaves the registry with no bucket for that
topic: the bucket is deleted when it becomes empty. -/
theorem c4_add_remove_deletes_bucket (s : Service) (topic newId : String) (l : Nat)
    (hto : lookupA s.topicListeners topic = none)
    (hfresh : ∀ p ∈ s.topicListeners, lookupA p.2 newId = none) :
    lookupA ((Service.RemoveTopicListener (s.AddTopicListener topic newId l).1
        (s.AddTopicListener topic newId l).2).topicListeners) topic = none := by
  have h1 : (lookupA s.topicListeners topic).getD []
      = ([] : List (String × topicListenerEntry)) := by rw [hto]; rfl
  have hadd : (s.AddTopicListener topic newId l).1.topicListeners
      = s.topicListeners ++ [(topic, [(newId, ⟨newId, l⟩)])] := by
    show setA s.topicListeners topic
        (setA ((lookupA s.topicListeners topic).getD []) newId ⟨newId, l⟩)
      = s.topicListeners ++ [(topic, [(newId, ⟨newId, l⟩)])]
    rw [h1]
    exact setA_of_lookup_none _ _ _ hto
  have hid : (s.AddTopicListener topic newId l).2 = newId := rfl
  show lookupA (removeListenerFromBuckets
      (s.AddTopicListener topic newId l).1.topicListeners
      (s.AddTopicListener topic newId l).2) topic = none
  rw [hid, hadd, removeListenerFromBuckets_append_singleton _ _ _ _ hfresh]
  exact hto

/-- Witness for C4 at a concrete input: on a fresh service, add one listener
to topic "t" and remove it by the returned id; no bucket for "t" remains. -/
theorem c4_add_remove_deletes_bucket_witness :
    lookupA ((Service.RemoveTopicListener
        (NewRemoteClusterService.AddTopicListener "t" "id1" 0).1
        (NewRemoteClusterService.AddTopicListener "t" "id1" 0).2).topicListeners) "t"
      = none :=
  c4_add_remove_deletes_bucket NewRemoteClusterService "t" "id1" 0 (by decide) (by decide)

/-- Claim C6: removing a listener id that is present in no topic bucket never
fails and leaves the whole service state exactly unchanged. -/
theorem c6_remove_unknown_noop (s : Service) (lid : String)
    (h : ∀ p ∈ s.topicListeners, lookupA p.2 lid = none) :
    s.RemoveTopicListener lid = s := by
  show { s with topicListeners := removeListenerFromBuckets s.topicListeners lid } = s
  rw [removeListenerFromBuckets_absent _ _ h]

/-- Witness for C6 at a concrete input: removing an unknown id from a service
holding one listener on topic "t" changes nothing. -/
theorem c6_remove_unknown_noop_witness :
    Service.RemoveTopicListener (NewRemoteClusterService.AddTopicListener "t" "a" 0).1 "nope"
      = (NewRemoteClusterService.AddTopicListener "t" "a" 0).1 :=
  c6_remove_unknown_noop (NewRemoteClusterService.AddTopicListener "t" "a" 0).1 "nope"
    (by decide)

/- Model helper: the listener bucket currently stored for a topic ([] when
   absent). -/
def Service.bucketOf (s : Service) (topic : String) : List (String × topicListenerEntry) :=
  (lookupA s.topicListeners topic).getD []

/- Model helper: N successive AddTopicListener calls on one topic, one per
   (generated id, listener) pair, collecting the returned ids in order. -/
def Service.addMany (s : Service) (topic : String) (pairs : List (String × Nat)) :
    Service × List String :=
  match pairs with
  | [] => (s, [])
  | (nid, l) :: rest =>
    let p := s.AddTopicListener topic nid l
    let q := p.1.addMany topic rest
    (q.1, p.2 :: q.2)

theorem getTopicListeners_length (s : Service) (topic : String) :
    (s.getTopicListeners topic).length = (s.bucketOf topic).length := by
  unfold Service.getTopicListeners Service.bucketOf
  cases lookupA s.topicListeners topic with
  | none => rfl
  | some entries => simp

theorem bucketOf_AddTopicListener (s : Service) (topic newId : String) (l : Nat) :
    ((s.AddTopicListener topic newId l).1).bucketOf topic
      = setA (s.bucketOf topic) newId ⟨newId, l⟩ := by
  show (lookupA (setA s.topicListeners topic
      (setA ((lookupA s.topicListeners topic).getD []) newId ⟨newId, l⟩)) topic).getD []
    = setA ((lookupA s.topicListeners topic).getD []) newId ⟨newId, l⟩
  rw [lookupA_setA_self]
  rfl

theorem addMany_bucket_spec (pairs : List (String × Nat)) :
    ∀ (s : Service) (topic : String),
    (∀ p ∈ pairs, lookupA (s.bucketOf topic) p.1 = none) →
    ((pairs.map Prod.fst).Nodup) →
    (s.addMany topic pairs).2 = pairs.map Prod.fst ∧
    ((s.addMany topic pairs).1.bucketOf topic).length
      = (s.bucketOf topic).length + pairs.length := by
  induction pairs with
  | nil => intro s topic _ _; exact ⟨rfl, rfl⟩
  | cons hd tl ih =>
    obtain ⟨nid, l⟩ := hd
    intro s topic hfresh hnodup
    have hbn : lookupA (s.bucketOf topic) nid = none :=
      hfresh (nid, l) (List.mem_cons_self _ _)
    have hmem : nid ∉ tl.map Prod.fst := (List.nodup_cons.mp hnodup).1
    have hnodup' : (tl.map Prod.fst).Nodup := (List.nodup_cons.mp hnodup).2
    have hb1 := bucketOf_AddTopicListener s topic nid l
    have hfresh' : ∀ p ∈ tl,
        lookupA ((s.AddTopicListener topic nid l).1.bucketOf topic) p.1 = none := by
      intro p hp
      have hne : p.1 ≠ nid := by
        intro hh
        exact hmem (hh ▸ List.mem_map_of_mem Prod.fst hp)
      rw [hb1, lookupA_setA_ne _ _ _ _ hne]
      exact hfresh p (List.mem_cons_of_mem _ hp)
    obtain ⟨ih1, ih2⟩ := ih (s.AddTopicListener topic nid l).1 topic hfresh' hnodup'
    constructor
    · show (nid :: ((s.AddTopicListener topic nid l).1.addMany topic tl).2)
        = nid :: tl.map Prod.fst
      rw [ih1]
    · show (((s.AddTopicListener topic nid l).1.addMany topic tl).1.bucketOf topic).length
        = (s.bucketOf topic).length + (tl.length + 1)
      rw [ih2, hb1, length_setA_of_lookup_none _ _ _ hbn]
      omega

/-- Claim C5: starting from a registry state with no bucket for a topic, and
given pairwise-distinct generated ids, N successive AddTopicListener calls on
that topic return exactly those N distinct ids, never fail, and
getTopicListeners then returns exactly N listeners. -/
theorem c5_add_n_listeners (s : Service) (topic : String) (pairs : List (String × Nat))
    (hto : lookupA s.topicListeners topic = none)
    (hnodup : (pairs.map Prod.fst).Nodup) :
    (s.addMany topic pairs).2 = pairs.map Prod.fst ∧
    (s.addMany topic pairs).2.Nodup ∧
    ((s.addMany topic pairs).1.getTopicListeners topic).length = pairs.length := by
  have hbo : s.bucketOf topic = [] := by
    unfold Service.bucketOf
    rw [hto]
    rfl
  have hfresh : ∀ p ∈ pairs, lookupA (s.bucketOf topic) p.1 = none := by
    intro p _
    rw [hbo]
    rfl
  obtain ⟨h1, h2⟩ := addMany_bucket_spec pairs s topic hfresh hnodup
  refine ⟨h1, ?_, ?_⟩
  · rw [h1]; exact hnodup
  · rw [getTopicListeners_length, h2, hbo]
    simp

/-- Witness for C5 at a concrete input: two adds on topic "t" of a fresh
service return ids "a", "b" (distinct) and getTopicListeners has length 2. -/
theorem c5_add_n_listeners_witness :
    (NewRemoteClusterService.addMany "t" [("a", 1), ("b", 2)]).2
      = [("a", 1), ("b", 2)].map Prod.fst ∧
    (NewRemoteClusterService.addMany "t" [("a", 1), ("b", 2)]).2.Nodup ∧
    ((NewRemoteClusterService.addMany "t" [("a", 1), ("b", 2)]).1.getTopicListeners "t").length
      = 2 :=
  c5_add_n_listeners NewRemoteClusterService "t" [("a", 1), ("b", 2)]
    (by decide) (by decide)

/- Source: resume — no-op when already active; otherwise mark active, create a
   fresh done channel (modelled by a new generation number) and start the ping
   pipeline (unless the package-level disablePing test flag is set, passed
   explicitly) and the send pipeline, both parameterized by that channel. -/
def Service.resume (s : Service) (disablePing : Bool) : Service :=
  if s.active then s
  else
    { s with
      active := true
      done := some s.nextChan
      nextChan := s.nextChan + 1
      pingStarts := if disablePing then s.pingStarts else s.pingStarts ++ [s.nextChan]
      sendStarts := s.sendStarts ++ [s.nextChan] }

/- Source: pause — no-op when already inactive; otherwise mark inactive, close
   the done channel and nil it.  Closing a nil channel or an already-closed
   channel is a Go runtime fault, modelled as `none`. -/
def Service.pause (s : Service) : Option Service :=
  if s.active then
    match s.done with
    | none => none
    | some c =>
      if c ∈ s.closedChans then none
      else some { s with active := false, done := none, closedChans := c :: s.closedChans }
  else some s

/- Source: onClusterLeaderChange — resume when this node is leader, pause
   otherwise.  Leadership (server.IsLeader()) is passed explicitly. -/
def Service.onClusterLeaderChange (s : Service) (disablePing isLeader : Bool) :
    Option Service :=
  if isLeader then some (s.resume disablePing) else s.pause

/- Source: Start — store the leadership-listener handle returned by the server
   (passed explicitly), then evaluate current leadership. -/
def Service.Start (s : Service) (disablePing isLeader : Bool) (newListenerId : String) :
    Option Service :=
  Service.onClusterLeaderChange { s with leaderListenerId := newListenerId }
    disablePing isLeader

/- Source: Shutdown — unregister the leadership listener using the stored
   handle (the handle passed to the server is returned alongside the new
   state), then pause. -/
def Service.Shutdown (s : Service) : Option (Service × String) :=
  (s.pause).map fun s2 => (s2, s.leaderListenerId)

/- States reachable from a fresh service by any sequence of resume, pause,
   Start and Shutdown calls (onClusterLeaderChange performs the first two). -/
inductive Reach : Service → Prop where
  | init : Reach NewRemoteClusterService
  | resumeStep : ∀ s dp, Reach s → Reach (Service.resume s dp)
  | pauseStep : ∀ s s2, Reach s → Service.pause s = some s2 → Reach s2
  | startStep : ∀ s s2 dp lead lid, Reach s →
      Service.Start s dp lead lid = some s2 → Reach s2
  | shutdownStep : ∀ s s2 lid, Reach s →
      Service.Shutdown s = some (s2, lid) → Reach s2

/- Lifecycle invariant: every closed generation was allocated in the past, and
   `done` holds a live (allocated, unclosed) generation exactly when active. -/
def Inv (s : Service) : Prop :=
  (∀ c ∈ s.closedChans, c < s.nextChan) ∧
  (s.active = true → ∃ c, s.done = some c ∧ c ∉ s.closedChans ∧ c < s.nextChan) ∧
  (s.active = false → s.done = none)

theorem inv_init : Inv NewRemoteClusterService := by
  refine ⟨?_, ?_, ?_⟩
  · intro c hc
    exact absurd hc (List.not_mem_nil c)
  · intro h
    exact nomatch h
  · intro _
    rfl

theorem inv_resume (s : Service) (dp : Bool) (h : Inv s) : Inv (s.resume dp) := by
  obtain ⟨h1, h2, h3⟩ := h
  cases ha : s.active with
  | true =>
    have hr : s.resume dp = s := by simp [Service.resume, ha]
    rw [hr]
    exact ⟨h1, h2, h3⟩
  | false =>
    have hr : s.resume dp = { s with
        active := true
        done := some s.nextChan
        nextChan := s.nextChan + 1
        pingStarts := if dp then s.pingStarts else s.pingStarts ++ [s.nextChan]
        sendStarts := s.sendStarts ++ [s.nextChan] } := by
      simp [Service.resume, ha]
    rw [hr]
    refine ⟨?_, ?_, ?_⟩
    · intro c hc
      exact Nat.lt_succ_of_lt (h1 c hc)
    · intro _
      exact ⟨s.nextChan, rfl, fun hmem => absurd (h1 _ hmem) (Nat.lt_irrefl _),
        Nat.lt_succ_self _⟩
    · intro hfalse
      exact nomatch hfalse

theorem inv_pause (s s2 : Service) (h : Inv s) (hp : s.pause = some s2) : Inv s2 := by
  obtain ⟨h1, h2, h3⟩ := h
  cases ha : s.active with
  | false =>
    have hr : s.pause = some s := by simp [Service.pause, ha]
    rw [hr] at hp
    have hs2 := Option.some.inj hp
    subst hs2
    exact ⟨h1, h2, h3⟩
  | true =>
    obtain ⟨c, hc, hcm, hcl⟩ := h2 ha
    have hr : s.pause
        = some { s with active := false, done := none, closedChans := c :: s.closedChans } := by
      simp [Service.pause, ha, hc, hcm]
    rw [hr] at hp
    have hs2 := Option.some.inj hp
    subst hs2
    refine ⟨?_, ?_, ?_⟩
    · intro d hd
      rcases List.mem_cons.mp hd with rfl | hd2
      · exact hcl
      · exact h1 d hd2
    · intro hfalse
      exact nomatch hfalse
    · intro _
      rfl

/- Structure updates that keep every Inv-relevant field preserve Inv; the
   leadership handle is irrelevant to the invariant. -/
theorem inv_setListenerId (s : Service) (lid : String) (h : Inv s) :
    Inv { s with leaderListenerId := lid } := h

theorem reach_inv (s : Service) (h : Reach s) : Inv s := by
  induction h with
  | init => exact inv_init
  | resumeStep s dp _ ih => exact inv_resume s dp ih
  | pauseStep s s2 _ hp ih => exact inv_pause s s2 ih hp
  | startStep s s2 dp lead lid _ hst ih =>
    cases lead with
    | true =>
      have hst2 : Service.resume { s with leaderListenerId := lid } dp = s2 := by
        simpa [Service.Start, Service.onClusterLeaderChange] using hst
      rw [← hst2]
      exact inv_resume _ dp (inv_setListenerId s lid ih)
    | false =>
      have hp : Service.pause { s with leaderListenerId := lid } = some s2 := by
        simpa [Service.Start, Service.onClusterLeaderChange] using hst
      exact inv_pause _ s2 (inv_setListenerId s lid ih) hp
  | shutdownStep s s2 lid _ hsh ih =>
    obtain ⟨s3, hp, hf⟩ := Option.map_eq_some'.mp hsh
    have hs2 : s3 = s2 := congrArg Prod.fst hf
    subst hs2
    exact inv_pause s s3 ih hp

theorem pause_succeeds (s : Service) (h : Inv s) :
    ∃ s2, s.pause = some s2 ∧ (s.active = false → s2 = s) := by
  obtain ⟨h1, h2, h3⟩ := h
  cases ha : s.active with
  | false => exact ⟨s, by simp [Service.pause, ha], fun _ => rfl⟩
  | true =>
    obtain ⟨c, hc, hcm, _⟩ := h2 ha
    refine ⟨{ s with active := false, done := none, closedChans := c :: s.closedChans },
      by simp [Service.pause, ha, hc, hcm], ?_⟩
    intro hfalse
    exact nomatch hfalse

/-- Claim C1: in every state reachable from a fresh service by resume, pause,
Start and Shutdown calls, active is true iff done is a live (non-nil, not yet
closed) cancellation signal. -/
theorem c1_lifecycle_invariant (s : Service) (h : Reach s) :
    s.active = true ↔ ∃ c, s.done = some c ∧ c ∉ s.closedChans := by
  obtain ⟨h1, h2, h3⟩ := reach_inv s h
  constructor
  · intro ha
    obtain ⟨c, hc, hcm, _⟩ := h2 ha
    exact ⟨c, hc, hcm⟩
  · rintro ⟨c, hc, _⟩
    cases ha : s.active with
    | true => rfl
    | false =>
      rw [h3 ha] at hc
      exact nomatch hc

/-- Witness for C1 at a concrete reachable state: after one resume() from a
fresh service, the equivalence holds (both sides true). -/
theorem c1_lifecycle_invariant_witness :
    (Service.resume NewRemoteClusterService false).active = true ↔
    ∃ c, (Service.resume NewRemoteClusterService false).done = some c ∧
      c ∉ (Service.resume NewRemoteClusterService false).closedChans :=
  c1_lifecycle_invariant _ (Reach.resumeStep NewRemoteClusterService false Reach.init)

/-- Claim C2: pause() on any inactive Service state is a no-op: it returns the
state unchanged (so the closedChans log is unchanged) and never reaches the
close-signal branch, hence never closes an already-closed signal. -/
theorem c2_pause_inactive_noop (s : Service) (h : s.active = false) :
    s.pause = some s := by
  simp [Service.pause, h]

/-- Witness for C2 at a concrete input: pause() on a fresh (inactive) service
returns it unchanged. -/
theorem c2_pause_inactive_noop_witness :
    Service.pause NewRemoteClusterService = some NewRemoteClusterService :=
  c2_pause_inactive_noop NewRemoteClusterService rfl

theorem resume_active (s : Service) (dp : Bool) : (s.resume dp).active = true := by
  unfold Service.resume
  cases h : s.active with
  | true => simp [h]
  | false => simp [h]

theorem resume_of_active (s : Service) (dp : Bool) (h : s.active = true) :
    s.resume dp = s := by
  simp [Service.resume, h]

/-- Counterexample to C3 as stated: from an already-active service (reached by
one resume() from a fresh service), two further resume() calls start the send
pipeline zero times, not exactly once. -/
theorem c3_counterexample :
    ¬ ((((NewRemoteClusterService.resume false).resume false).resume false).sendStarts.length
        = (NewRemoteClusterService.resume false).sendStarts.length + 1) := by
  decide

/-- Claim C3 (amended): the second of two successive resume() calls is always
a no-op (same state: no new signal, no new workers); and when the starting
state is inactive, the pair of calls starts the send pipeline exactly once and
the ping pipeline exactly once unless pinging is disabled. -/
theorem c3_resume_idempotent (s : Service) (dp : Bool) :
    (s.resume dp).resume dp = s.resume dp ∧
    (s.active = false →
      ((s.resume dp).sendStarts.length = s.sendStarts.length + 1 ∧
       (s.resume dp).pingStarts.length
         = s.pingStarts.length + (if dp then 0 else 1))) := by
  constructor
  · exact resume_of_active _ dp (resume_active s dp)
  · intro h
    have hr : s.resume dp = { s with
        active := true
        done := some s.nextChan
        nextChan := s.nextChan + 1
        pingStarts := if dp then s.pingStarts else s.pingStarts ++ [s.nextChan]
        sendStarts := s.sendStarts ++ [s.nextChan] } := by
      simp [Service.resume, h]
    rw [hr]
    constructor
    · simp
    · cases dp with
      | true => simp
      | false => simp

/-- Witness for C3 (amended) at a concrete input: on a fresh service, the
second resume() is a no-op and the first added exactly one send-pipeline
start. -/
theorem c3_resume_idempotent_witness :
    ((NewRemoteClusterService.resume false).resume false
        = NewRemoteClusterService.resume false) ∧
    ((NewRemoteClusterService.resume false).sendStarts.length
        = NewRemoteClusterService.sendStarts.length + 1) :=
  ⟨(c3_resume_idempotent NewRemoteClusterService false).1,
   ((c3_resume_idempotent NewRemoteClusterService false).2 rfl).1⟩

/-- Claim C9: Shutdown() is safe in every reachable Service state, including
one never started or already paused: it passes the stored leadership handle
(the zero value "" when Start was never called) to the unregister call, then
pauses without fault; when already inactive the pause step leaves the state
unchanged. -/
theorem c9_shutdown_safe (s : Service) (h : Reach s) :
    ∃ s2, s.Shutdown = some (s2, s.leaderListenerId) ∧ (s.active = false → s2 = s) := by
  obtain ⟨s2, hp, hid⟩ := pause_succeeds s (reach_inv s h)
  exact ⟨s2, by simp [Service.Shutdown, hp], hid⟩

/-- Witness for C9 at a concrete input: Shutdown() on a never-started fresh
service succeeds, unregisters with the zero-value handle and changes
nothing. -/
theorem c9_shutdown_safe_witness :
    ∃ s2, NewRemoteClusterService.Shutdown
        = some (s2, NewRemoteClusterService.leaderListenerId) ∧
      (NewRemoteClusterService.active = false → s2 = NewRemoteClusterService) :=
  c9_shutdown_safe NewRemoteClusterService Reach.init

end RemoteCluster
